import Mathlib

/-!
Shallow embedding of the consolidation stage of BSLMap
(`src/bslmap/consolidate_extractions.py`: `load_labs_data` and
`merge_extractions`), together with theorems checking the
natural-language specification against it.

Modelling conventions:
* JSON records become Lean structures; a field that may be absent (or
  JSON `null`, which the code treats the same way through `dict.get`
  defaults and truthiness tests) is an `Option`.
* Python `str.lower` is modelled by `lowerStr` (per-character ASCII
  lowering), `needle in hay` by `strHasSub`, `a or b` on strings by
  `pyOr` (first non-empty wins).
* Python dicts keep key insertion order; overwriting a key keeps its
  original position.  The gazetteer dict is an association list with an
  in-place-overwrite insert (`dictInsert`), the `defaultdict` of groups
  an association list with append-at-end for new keys (`addToGroup`).
* `confidence` values coming from JSON may be numbers or strings; the
  code compares them with Python `sorted`, which raises `TypeError` on
  mixed number/string keys.  `sorted(recs, key=..., reverse=True)` is
  modelled as a stable descending insertion sort in the `Except`
  monad (`sortDescM`): on totally ordered keys a stable sort is unique,
  so this computes exactly what CPython's stable sort computes, and it
  errors exactly when the input mixes numeric and string keys.
* Exceptions propagate: every step of `merge_extractions` after the
  grouping loop runs inside `Except String`.
-/

deriving instance DecidableEq for Except

/-- Model of Python `str.lower` (ASCII case folding, per character). -/
def lowerStr (s : String) : String :=
  ⟨s.data.map Char.toLower⟩

/-- `leadsWith needle hay` : `needle` is a prefix of `hay` (on character lists). -/
def leadsWith : List Char → List Char → Bool
  | [], _ => true
  | _ :: _, [] => false
  | a :: as, b :: bs => a == b && leadsWith as bs

/-- `hasSubChars needle hay` : `needle` occurs as a contiguous sublist of `hay`. -/
def hasSubChars (needle : List Char) : List Char → Bool
  | [] => leadsWith needle []
  | b :: bs => leadsWith needle (b :: bs) || hasSubChars needle bs

/-- Model of Python `needle in hay` on strings. -/
def strHasSub (hay needle : String) : Bool :=
  hasSubChars needle.data hay.data

/-- Model of Python `s.startswith(pre)` (on character lists). -/
def pyStartsWith (s pre : String) : Bool :=
  leadsWith pre.data s.data

/-- Model of Python `a or b` on strings: first truthy (non-empty) wins. -/
def pyOr (a b : String) : String :=
  if a = "" then b else a

/-- First non-empty string of a list, or `""` (spec-side helper for the
institution priority order). -/
def firstNonEmpty (l : List String) : String :=
  (l.find? (fun s => !(s == ""))).getD ""

/-- One gazetteer entry, as built by `load_labs_data` (the per-row dict
with keys institution/country/city/latitude/longitude). -/
structure GazEntry where
  institution : String
  country : String
  city : String
  latitude : String
  longitude : String
deriving DecidableEq

/-- One data row of `data/labs.csv` as seen through `csv.DictReader`:
`institution` is accessed with `row['institution']`, the rest with
`row.get(..., '')`, so the latter are optional. -/
structure LabsRow where
  institution : String
  country : Option String := none
  city : Option String := none
  latitude : Option String := none
  longitude : Option String := none
deriving DecidableEq

/-- The entry `load_labs_data` builds from one CSV row. -/
def rowEntry (row : LabsRow) : GazEntry :=
  { institution := row.institution
    country := row.country.getD ""
    city := row.city.getD ""
    latitude := row.latitude.getD ""
    longitude := row.longitude.getD "" }

/-- The gazetteer lookup: a Python dict in insertion order. -/
abbrev LabsDict := List (String × GazEntry)

/-- Python dict assignment `d[k] = v`: overwrite in place if the key is
present (keeping its original position), else append at the end. -/
def dictInsert (k : String) (v : GazEntry) : LabsDict → LabsDict
  | [] => [(k, v)]
  | (k₁, v₁) :: rest =>
    if k₁ = k then (k, v) :: rest else (k₁, v₁) :: dictInsert k v rest

/-- Python `d.get(k)` / `k in d` on the gazetteer dict. -/
def lookupD (labs : LabsDict) (k : String) : Option GazEntry :=
  (labs.find? (fun kv => kv.1 == k)).map (fun kv => kv.2)

/-- One iteration of the `load_labs_data` reader loop:
`labs[row['institution'].lower()] = {...}`. -/
def loadStep (d : LabsDict) (row : LabsRow) : LabsDict :=
  dictInsert (lowerStr row.institution) (rowEntry row) d

/-- `load_labs_data` (consolidate_extractions.py lines 9-28): `none`
models an absent `labs.csv` (returns the empty dict after a warning);
`some rows` models the parsed CSV, folded into a dict keyed by the
lowered institution name, later rows overwriting earlier ones. -/
def load_labs_data : Option (List LabsRow) → LabsDict
  | none => []
  | some rows => rows.foldl loadStep []

/-- A JSON confidence value: number or string (anything else is out of
scope for the claims; absence is `Option` at the use site). -/
inductive ConfVal where
  | num (q : ℚ)
  | str (s : String)
deriving DecidableEq

/-- One candidate extraction record (one line of the input JSONL). -/
structure CRec where
  doc_id : String := ""
  lab_name : Option String := none
  institution : Option String := none
  bsl_level_inferred : Option String := none
  pathogens : Option (List String) := none
  research_types : Option (List String) := none
  ppp_or_gof : Option Bool := none
  confidence : Option ConfVal := none
  evidence_spans : Option (List String) := none
deriving DecidableEq

/-- One corpus record (only the fields `merge_extractions` reads). -/
structure CorpusRec where
  doc_id : String := ""
  aff_hint : Option String := none
deriving DecidableEq

/-- One consolidated output row, in the shape handed to `csv.DictWriter`. -/
structure OutRow where
  pmid : String
  lab_name : String
  institution : String
  country : String
  city : String
  latitude : String
  longitude : String
  bsl_level_inferred : String
  pathogens : String
  research_types : String
  ppp_or_gof : Bool
  confidence : ConfVal
  source_pmid : String
deriving DecidableEq

/-- The written CSV file: the header produced by `writeheader()` and the
data rows, in order. -/
structure CsvFile where
  header : List String
  dataRows : List OutRow
deriving DecidableEq

/-- `re.match(r"pmid:(\d+)", doc_id)` (line 48): anchored at the start,
captures the maximal digit run after `pmid:`; `none` when the pattern
fails. -/
def pmidOf (doc_id : String) : Option String :=
  if pyStartsWith doc_id "pmid:" then
    let digits := (doc_id.data.drop 5).takeWhile Char.isDigit
    if digits = [] then none else some ⟨digits⟩
  else none

/-- `by_pmid[key].append(r)` on a `defaultdict(list)`: append to the
existing group, or create a new group at the end of the dict. -/
def addToGroup (gs : List (String × List CRec)) (k : String) (r : CRec) :
    List (String × List CRec) :=
  match gs with
  | [] => [(k, [r])]
  | (k₁, rs) :: rest =>
    if k₁ = k then (k₁, rs ++ [r]) :: rest else (k₁, rs) :: addToGroup rest k r

/-- One iteration of the grouping loop: skip on pattern failure, else
append to the matched group. -/
def groupStep (gs : List (String × List CRec)) (r : CRec) : List (String × List CRec) :=
  match pmidOf r.doc_id with
  | none => gs
  | some p => addToGroup gs p r

/-- The grouping loop (lines 46-53): records whose `doc_id` fails the
pattern are skipped. -/
def groupByPmid (records : List CRec) : List (String × List CRec) :=
  records.foldl groupStep []

/-- The records of `records` that the grouping loop sends to group `p`,
in arrival order (spec-side characterisation). -/
def filtRecs (records : List CRec) (p : String) : List CRec :=
  records.filter (fun r => pmidOf r.doc_id == some p)

/-- Group lookup by key in the grouping dict. -/
def lookupG (gs : List (String × List CRec)) (p : String) : Option (List CRec) :=
  (gs.find? (fun kv => kv.1 == p)).map (fun kv => kv.2)

/-- `x.get("confidence", 0)`: the sort key of one record. -/
def confKey (r : CRec) : ConfVal :=
  r.confidence.getD (ConfVal.num 0)

/-- One Python comparison `a >= b` between two sort keys: defined on
number/number and string/string, `TypeError` on mixed kinds. -/
def geKey : ConfVal → ConfVal → Except String Bool
  | ConfVal.num a, ConfVal.num b => Except.ok (decide (b ≤ a))
  | ConfVal.str a, ConfVal.str b => Except.ok (!(decide (a < b)))
  | _, _ => Except.error "TypeError: unorderable confidence values"

/-- Stable descending insertion into an already-sorted list, raising
`TypeError` like Python when keys of mixed kinds get compared. -/
def insertDescM (x : CRec) : List CRec → Except String (List CRec)
  | [] => Except.ok [x]
  | y :: ys =>
    match geKey (confKey x) (confKey y) with
    | Except.error e => Except.error e
    | Except.ok true => Except.ok (x :: y :: ys)
    | Except.ok false =>
      match insertDescM x ys with
      | Except.error e => Except.error e
      | Except.ok t => Except.ok (y :: t)

/-- `sorted(recs, key=lambda x: x.get("confidence", 0), reverse=True)`
(line 59), as a stable descending sort in the `Except` monad. -/
def sortDescM : List CRec → Except String (List CRec)
  | [] => Except.ok []
  | x :: xs =>
    match sortDescM xs with
    | Except.error e => Except.error e
    | Except.ok s => insertDescM x s

/-- `sorted(...)[0]`: the winning candidate of a group (`none` would be
an `IndexError`, impossible for groups built by the grouping loop). -/
def selectBest (recs : List CRec) : Except String (Option CRec) :=
  match sortDescM recs with
  | Except.error e => Except.error e
  | Except.ok s => Except.ok s.head?

/-- `confQ`: the numeric value of a sort key (only meaningful on records
whose confidence is numeric or missing). -/
def confQ (r : CRec) : ℚ :=
  match r.confidence with
  | some (ConfVal.num q) => q
  | some (ConfVal.str _) => 0
  | none => 0

/-- `true` iff the record's confidence is a number or missing (so its
sort key is numeric). -/
def numericConf (r : CRec) : Bool :=
  match r.confidence with
  | some (ConfVal.str _) => false
  | _ => true

/-- Pure stable descending insertion on numeric keys. -/
def insertDescQ (x : CRec) : List CRec → List CRec
  | [] => [x]
  | y :: ys => if confQ y ≤ confQ x then x :: y :: ys else y :: insertDescQ x ys

/-- Pure stable descending insertion sort on numeric keys. -/
def sortDescQ : List CRec → List CRec
  | [] => []
  | x :: xs => insertDescQ x (sortDescQ xs)

/-- Spec-side selector: the first record achieving the maximum numeric
key, in arrival order. -/
def firstMaxQ : List CRec → Option CRec
  | [] => none
  | x :: xs =>
    match firstMaxQ xs with
    | none => some x
    | some m => some (if confQ m ≤ confQ x then x else m)

/-- `". ".join(best.get("evidence_spans", [""])).lower()` (line 77). -/
def evidenceBlob (best : CRec) : String :=
  lowerStr (String.intercalate ". " (best.evidence_spans.getD [""]))

/-- The per-entry test of the evidence-scan loop (lines 84-100): the
entry's lowered name occurs in the blob, or the entry is the NIAID
alias case and the blob holds one of the fixed abbreviations. -/
def entryHit (blob : String) (kv : String × GazEntry) : Bool :=
  strHasSub blob (lowerStr kv.1) ||
    (strHasSub (lowerStr kv.1) "national institute of allergy and infectious diseases" &&
      (strHasSub blob "niaid" || strHasSub blob "national institute of allergy" ||
        strHasSub blob "nih"))

/-- Strategy A (lines 69-73): direct lookup of the lowered candidate
institution, only when the field is present and non-empty. -/
def strategyA (best : CRec) (labs : LabsDict) : Option GazEntry :=
  match best.institution with
  | none => none
  | some inst => if inst = "" then none else lookupD labs (lowerStr inst)

/-- `institution_match` (lines 67-100) as the code computes it: Strategy
A, then - only when it failed - the evidence scan, which the code only
enters when the blob and the gazetteer are both non-empty. -/
def institution_match (best : CRec) (labs : LabsDict) : Option GazEntry :=
  match strategyA best labs with
  | some e => some e
  | none =>
    let evidence := evidenceBlob best
    if evidence ≠ "" ∧ labs ≠ [] then
      (labs.find? (entryHit evidence)).map (fun kv => kv.2)
    else none

/-- Modelled from the spec wording of the matching cascade: Strategy A,
else the first gazetteer entry (in load order) hit by the evidence
blob - with no emptiness guard on the blob.  Compared with
`institution_match` for the refinement claim. -/
def specGeoMatch (best : CRec) (labs : LabsDict) : Option GazEntry :=
  match strategyA best labs with
  | some e => some e
  | none => (labs.find? (entryHit (evidenceBlob best))).map (fun kv => kv.2)

/-- `corpus_rec.get("aff_hint", "")` where `corpus_rec` is the first
corpus record whose `doc_id` merely starts with `pmid:<group id>`
(lines 62-64) - note: no delimiter check after the digits. -/
def affHintFor (corpus : List CorpusRec) (pmid : String) : String :=
  ((corpus.find? (fun r => pyStartsWith r.doc_id ("pmid:" ++ pmid))).bind
    (fun r => r.aff_hint)).getD ""

/-- The output row built from the winning candidate (lines 102-124). -/
def mkRow (labs : LabsDict) (corpus : List CorpusRec) (pmid : String) (best : CRec) :
    OutRow :=
  let im := institution_match best labs
  { pmid := pmid
    lab_name := best.lab_name.getD ""
    institution :=
      pyOr (affHintFor corpus pmid)
        (pyOr (best.institution.getD "")
          (match im with | some e => e.institution | none => ""))
    country := match im with | some e => e.country | none => ""
    city := match im with | some e => e.city | none => ""
    latitude := match im with | some e => e.latitude | none => ""
    longitude := match im with | some e => e.longitude | none => ""
    bsl_level_inferred := best.bsl_level_inferred.getD ""
    pathogens := String.intercalate "; " (best.pathogens.getD [])
    research_types := String.intercalate "; " (best.research_types.getD [])
    ppp_or_gof := best.ppp_or_gof.getD false
    confidence := best.confidence.getD (ConfVal.num 0)
    source_pmid := pmid }

/-- Processing of one publication group (lines 58-125): select the
winner, then build the row; any exception escapes. -/
def buildRow (labs : LabsDict) (corpus : List CorpusRec) (pmid : String)
    (recs : List CRec) : Except String OutRow :=
  match selectBest recs with
  | Except.error e => Except.error e
  | Except.ok none => Except.error "IndexError: list index out of range"
  | Except.ok (some best) => Except.ok (mkRow labs corpus pmid best)

/-- The merge loop over all groups, in dict order; an exception raised
for one group propagates and aborts the whole run. -/
def processGroups (labs : LabsDict) (corpus : List CorpusRec) :
    List (String × List CRec) → Except String (List OutRow)
  | [] => Except.ok []
  | (p, rs) :: t =>
    match buildRow labs corpus p rs with
    | Except.error e => Except.error e
    | Except.ok row =>
      match processGroups labs corpus t with
      | Except.error e => Except.error e
      | Except.ok rest => Except.ok (row :: rest)

/-- The fixed `fieldnames` list of the CSV writer (lines 131-135). -/
def fieldnames : List String :=
  ["pmid", "lab_name", "institution", "country", "city",
   "latitude", "longitude", "bsl_level_inferred",
   "pathogens", "research_types", "ppp_or_gof", "confidence", "source_pmid"]

/-- `merge_extractions` end to end: load the gazetteer, group the
candidates, merge every group, then write header and rows.  The file is
produced only when no group raised. -/
def merge_extractions (candidates : List CRec) (labsFile : Option (List LabsRow))
    (corpus : List CorpusRec) : Except String CsvFile :=
  match processGroups (load_labs_data labsFile) corpus (groupByPmid candidates) with
  | Except.error e => Except.error e
  | Except.ok rows => Except.ok { header := fieldnames, dataRows := rows }

/-! ### Concrete inputs used by the example conjuncts and witnesses -/

/-- Selector example, group with confidences 0.4, 0.9, 0.9. -/
def selA : CRec := { doc_id := "pmid:123#chunk0", confidence := some (ConfVal.num (mkRat 4 10)) }

/-- Second record of the selector example (first maximum). -/
def selB : CRec := { doc_id := "pmid:123#chunk1", confidence := some (ConfVal.num (mkRat 9 10)) }

/-- Third record of the selector example (tied maximum, arrives later). -/
def selC : CRec := { doc_id := "pmid:123#chunk2", confidence := some (ConfVal.num (mkRat 9 10)) }

/-- A candidate whose own institution field is "Other Lab". -/
def candOther : CRec :=
  { doc_id := "pmid:7#chunk0", institution := some "Other Lab",
    confidence := some (ConfVal.num (mkRat 1 2)) }

/-- A corpus record for publication 7 with aff_hint "Acme Lab". -/
def corpAcme : CorpusRec := { doc_id := "pmid:7#chunk0", aff_hint := some "Acme Lab" }

/-- A gazetteer with one geocoded entry, used where a non-matching
gazetteer is needed. -/
def wuhanRows : List LabsRow :=
  [{ institution := "Wuhan Institute of Virology", country := some "China",
     city := some "Wuhan", latitude := some "30.54", longitude := some "114.36" }]

/-- A candidate with NIAID evidence text and an institution name that is
no gazetteer key. -/
def niaidCand : CRec :=
  { doc_id := "pmid:9#chunk0", institution := some "somewhere else",
    evidence_spans := some ["researchers at niaid found evidence"],
    confidence := some (ConfVal.num (mkRat 3 4)) }

/-- A gazetteer holding the NIAID alias entry after another entry. -/
def niaidRows : List LabsRow :=
  [{ institution := "Wuhan Institute of Virology", country := some "China", city := some "Wuhan" },
   { institution := "National Institute of Allergy and Infectious Diseases (NIAID)",
     country := some "USA", city := some "Bethesda" }]

/-- Group-1 record whose confidence is a string: its sort key cannot be
compared with a numeric key. -/
def mixedStr : CRec := { doc_id := "pmid:1#chunk0", confidence := some (ConfVal.str "high") }

/-- Group-1 record with a numeric confidence. -/
def mixedNum : CRec := { doc_id := "pmid:1#chunk1", confidence := some (ConfVal.num (mkRat 1 2)) }

/-- A well-formed record in group 2, lost when group 1 raises. -/
def goodRec : CRec :=
  { doc_id := "pmid:2#chunk0", lab_name := some "Good Lab",
    confidence := some (ConfVal.num (mkRat 9 10)) }

/-- Candidate used by the header-shape example. -/
def hdrCand : CRec := { doc_id := "pmid:77#chunk0", confidence := some (ConfVal.num (mkRat 3 4)) }

/-- The file the header-shape example produces. -/
def hdrFile : CsvFile := { header := fieldnames, dataRows := [mkRow [] [] "77" hdrCand] }

/-- Candidate of publication 12 (group key "12"). -/
def cand12 : CRec := { doc_id := "pmid:12#chunk0", confidence := some (ConfVal.num (mkRat 1 2)) }

/-- Corpus record of the distinct publication 123; its `doc_id` starts
with the characters `pmid:12`. -/
def corp123 : CorpusRec := { doc_id := "pmid:123#chunk0", aff_hint := some "Acme Lab" }

/-! ### Helper lemmas -/

/-- A successful `buildRow` comes from a successful selection, and the
row is `mkRow` of the winner. -/
theorem buildRow_ok {labs : LabsDict} {corpus : List CorpusRec} {pmid : String}
    {recs : List CRec} {row : OutRow}
    (h : buildRow labs corpus pmid recs = Except.ok row) :
    ∃ best, selectBest recs = Except.ok (some best) ∧ row = mkRow labs corpus pmid best := by
  unfold buildRow at h
  cases hs : selectBest recs with
  | error e => rw [hs] at h; simp at h
  | ok bo =>
    cases bo with
    | none => rw [hs] at h; simp at h
    | some best =>
      rw [hs] at h
      exact ⟨best, rfl, (Except.ok.inj h).symm⟩

/-- A record with numeric (or missing) confidence has a numeric sort key. -/
theorem confKey_numeric {r : CRec} (h : numericConf r = true) :
    confKey r = ConfVal.num (confQ r) := by
  unfold numericConf at h
  unfold confKey confQ
  cases hc : r.confidence with
  | none => rfl
  | some v =>
    cases v with
    | num q => rfl
    | str s => rw [hc] at h; simp at h

/-- On numeric keys the Python comparison succeeds and is the rational
comparison. -/
theorem geKey_numeric {x y : CRec} (hx : numericConf x = true) (hy : numericConf y = true) :
    geKey (confKey x) (confKey y) = Except.ok (decide (confQ y ≤ confQ x)) := by
  rw [confKey_numeric hx, confKey_numeric hy]; rfl

/-- Membership in a stable insertion. -/
theorem mem_insertDescQ {x z : CRec} :
    ∀ {l : List CRec}, z ∈ insertDescQ x l → z = x ∨ z ∈ l := by
  intro l
  induction l with
  | nil => intro h; simp [insertDescQ] at h; exact Or.inl h
  | cons y ys ih =>
    intro h
    unfold insertDescQ at h
    by_cases hc : confQ y ≤ confQ x
    · rw [if_pos hc] at h
      rcases List.mem_cons.mp h with h | h
      · exact Or.inl h
      · exact Or.inr h
    · rw [if_neg hc] at h
      rcases List.mem_cons.mp h with h | h
      · exact Or.inr (h ▸ List.mem_cons_self y ys)
      · rcases ih h with h₁ | h₁
        · exact Or.inl h₁
        · exact Or.inr (List.mem_cons_of_mem y h₁)

/-- Membership in the pure sort. -/
theorem mem_sortDescQ {z : CRec} :
    ∀ {l : List CRec}, z ∈ sortDescQ l → z ∈ l := by
  intro l
  induction l with
  | nil => intro h; simp [sortDescQ] at h
  | cons x xs ih =>
    intro h
    unfold sortDescQ at h
    rcases mem_insertDescQ h with h₁ | h₁
    · simp [h₁]
    · exact List.mem_cons_of_mem x (ih h₁)

/-- On all-numeric lists the monadic insertion computes the pure one. -/
theorem insertDescM_numeric {x : CRec} (hx : numericConf x = true) :
    ∀ (l : List CRec), (∀ y ∈ l, numericConf y = true) →
      insertDescM x l = Except.ok (insertDescQ x l) := by
  intro l
  induction l with
  | nil => intro _; rfl
  | cons y ys ih =>
    intro hl
    have hy : numericConf y = true := hl y (List.mem_cons_self y ys)
    have hys : ∀ z ∈ ys, numericConf z = true := fun z hz => hl z (List.mem_cons_of_mem y hz)
    unfold insertDescM insertDescQ
    rw [geKey_numeric hx hy]
    by_cases hc : confQ y ≤ confQ x
    · simp [hc]
    · simp [hc, ih hys]

/-- On all-numeric lists the monadic sort computes the pure stable sort. -/
theorem sortDescM_numeric :
    ∀ (l : List CRec), (∀ y ∈ l, numericConf y = true) →
      sortDescM l = Except.ok (sortDescQ l) := by
  intro l
  induction l with
  | nil => intro _; rfl
  | cons x xs ih =>
    intro hl
    have hx : numericConf x = true := hl x (List.mem_cons_self x xs)
    have hxs : ∀ z ∈ xs, numericConf z = true := fun z hz => hl z (List.mem_cons_of_mem x hz)
    unfold sortDescM sortDescQ
    rw [ih hxs]
    exact insertDescM_numeric hx (sortDescQ xs)
      (fun z hz => hxs z (mem_sortDescQ hz))

/-- `firstMaxQ` is `none` only on the empty list. -/
theorem firstMaxQ_eq_none {l : List CRec} (h : firstMaxQ l = none) : l = [] := by
  cases l with
  | nil => rfl
  | cons x xs =>
    unfold firstMaxQ at h
    cases hm : firstMaxQ xs <;> rw [hm] at h <;> simp at h

/-- The head of the pure stable descending sort is the first maximum in
arrival order. -/
theorem head_sortDescQ : ∀ (l : List CRec), (sortDescQ l).head? = firstMaxQ l := by
  intro l
  induction l with
  | nil => rfl
  | cons x xs ih =>
    unfold sortDescQ firstMaxQ
    cases hm : firstMaxQ xs with
    | none =>
      rw [firstMaxQ_eq_none hm]
      rfl
    | some m =>
      rw [hm] at ih
      cases hs : sortDescQ xs with
      | nil => rw [hs] at ih; simp at ih
      | cons h t =>
        rw [hs] at ih
        have hhm : h = m := by simpa using ih
        subst hhm
        by_cases hc : confQ h ≤ confQ x <;> simp [insertDescQ, hc]

/-- Group lookup on a cons cell. -/
theorem lookupG_cons (k₁ : String) (rs : List CRec) (rest : List (String × List CRec))
    (p : String) :
    lookupG ((k₁, rs) :: rest) p = if k₁ = p then some rs else lookupG rest p := by
  by_cases h : k₁ = p
  · subst h; simp [lookupG, List.find?]
  · have hb : (k₁ == p) = false := by simpa using h
    simp [lookupG, List.find?, hb, h]

/-- Effect of one `defaultdict` append on a group lookup. -/
theorem lookupG_addToGroup (gs : List (String × List CRec)) (k : String) (r : CRec)
    (p : String) :
    lookupG (addToGroup gs k r) p =
      if p = k then some (((lookupG gs p).getD []) ++ [r]) else lookupG gs p := by
  induction gs with
  | nil =>
    by_cases hpk : p = k
    · subst hpk
      simp [addToGroup, lookupG_cons, lookupG, List.find?]
    · have : ¬ k = p := fun h => hpk h.symm
      simp [addToGroup, lookupG_cons, this, hpk, lookupG]
  | cons g rest ih =>
    obtain ⟨k₁, rs⟩ := g
    by_cases h1 : k₁ = k
    · subst h1
      by_cases h2 : p = k₁
      · subst h2
        simp [addToGroup, lookupG_cons]
      · have h2s : ¬ k₁ = p := fun h => h2 h.symm
        simp [addToGroup, lookupG_cons, h2, h2s]
    · rw [show addToGroup ((k₁, rs) :: rest) k r = (k₁, rs) :: addToGroup rest k r by
        simp [addToGroup, h1]]
      rw [lookupG_cons, lookupG_cons]
      by_cases h2 : k₁ = p
      · subst h2
        simp [h1]
      · simp [h2, ih]

/-- Running the grouping loop from any accumulator: the group of `p`
gains exactly the records the pattern sends to `p`, in arrival order. -/
theorem lookupG_foldGroups (records : List CRec) :
    ∀ (gs : List (String × List CRec)) (p : String),
      lookupG (records.foldl groupStep gs) p =
        match lookupG gs p with
        | some l => some (l ++ filtRecs records p)
        | none => if filtRecs records p = [] then none else some (filtRecs records p) := by
  induction records with
  | nil =>
    intro gs p
    cases h : lookupG gs p <;> simp [filtRecs, h]
  | cons r rest ih =>
    intro gs p
    rw [List.foldl_cons]
    rw [ih (groupStep gs r) p]
    cases hp : pmidOf r.doc_id with
    | none =>
      have hstep : groupStep gs r = gs := by simp [groupStep, hp]
      have hfilt : filtRecs (r :: rest) p = filtRecs rest p := by
        simp [filtRecs, List.filter, hp]
      rw [hstep, hfilt]
    | some k =>
      have hstep : groupStep gs r = addToGroup gs k r := by simp [groupStep, hp]
      rw [hstep, lookupG_addToGroup gs k r p]
      by_cases hkp : p = k
      · subst hkp
        have hfilt : filtRecs (r :: rest) p = r :: filtRecs rest p := by
          simp [filtRecs, List.filter, hp]
        rw [hfilt, if_pos rfl]
        cases hg : lookupG gs p with
        | none => simp
        | some l => simp
      · have hfilt : filtRecs (r :: rest) p = filtRecs rest p := by
          have hne : (pmidOf r.doc_id == some p) = false := by
            rw [hp]
            simpa using fun h => hkp h.symm
          simp [filtRecs, List.filter, hne]
        rw [if_neg hkp, hfilt]

/-- Dict lookup on a cons cell. -/
theorem lookupD_cons (k₁ : String) (v₁ : GazEntry) (rest : LabsDict) (key : String) :
    lookupD ((k₁, v₁) :: rest) key = if k₁ = key then some v₁ else lookupD rest key := by
  by_cases h : k₁ = key
  · subst h; simp [lookupD, List.find?]
  · have hb : (k₁ == key) = false := by simpa using h
    simp [lookupD, List.find?, hb, h]

/-- Effect of one dict store on a later lookup. -/
theorem lookupD_dictInsert (d : LabsDict) (k : String) (v : GazEntry) (key : String) :
    lookupD (dictInsert k v d) key = if key = k then some v else lookupD d key := by
  induction d with
  | nil =>
    by_cases h : key = k
    · subst h; simp [dictInsert, lookupD_cons]
    · have hs : ¬ k = key := fun hh => h hh.symm
      simp [dictInsert, lookupD_cons, hs, h, lookupD]
  | cons kv rest ih =>
    obtain ⟨k₁, v₁⟩ := kv
    by_cases h1 : k₁ = k
    · subst h1
      by_cases h2 : key = k₁
      · subst h2; simp [dictInsert, lookupD_cons]
      · have h2s : ¬ k₁ = key := fun hh => h2 hh.symm
        simp [dictInsert, lookupD_cons, h2, h2s]
    · rw [show dictInsert k v ((k₁, v₁) :: rest) = (k₁, v₁) :: dictInsert k v rest by
        simp [dictInsert, h1]]
      rw [lookupD_cons, lookupD_cons]
      by_cases h2 : k₁ = key
      · subst h2
        simp [h1]
      · simp [h2, ih]

/-- Running the CSV reader loop from any accumulator: a key resolves to
the entry of the last matching row, else to the accumulator's value. -/
theorem lookupD_loadRows (rows : List LabsRow) :
    ∀ (d : LabsDict) (key : String),
      lookupD (rows.foldl loadStep d) key =
        match (rows.filter (fun row => lowerStr row.institution == key)).getLast? with
        | some row => some (rowEntry row)
        | none => lookupD d key := by
  induction rows with
  | nil => intro d key; simp
  | cons row rest ih =>
    intro d key
    rw [List.foldl_cons]
    rw [ih (loadStep d row) key]
    by_cases hk : lowerStr row.institution = key
    · have hfilt : (row :: rest).filter (fun q => lowerStr q.institution == key) =
          row :: rest.filter (fun q => lowerStr q.institution == key) := by
        simp [List.filter, hk]
      rw [hfilt]
      cases hfr : rest.filter (fun q => lowerStr q.institution == key) with
      | nil =>
        have hload : lookupD (loadStep d row) key = some (rowEntry row) := by
          unfold loadStep
          rw [lookupD_dictInsert, if_pos hk.symm]
        simp [hload]
      | cons q qs =>
        rw [List.getLast?_cons_cons]
        cases hql : (q :: qs).getLast? with
        | none => exact absurd hql (by simp [List.getLast?_eq_none_iff])
        | some lastRow => rfl
    · have hkb : (lowerStr row.institution == key) = false := by simpa using hk
      have hfilt : (row :: rest).filter (fun q => lowerStr q.institution == key) =
          rest.filter (fun q => lowerStr q.institution == key) := by
        simp [List.filter, hkb]
      rw [hfilt]
      have : lookupD (loadStep d row) key = lookupD d key := by
        unfold loadStep
        rw [lookupD_dictInsert, if_neg (fun h => hk h.symm)]
      rw [this]

/-- The pmid field of a built row. -/
theorem mkRow_pmid (labs : LabsDict) (corpus : List CorpusRec) (pmid : String)
    (best : CRec) : (mkRow labs corpus pmid best).pmid = pmid := rfl

/-- A successful group loop yields one row per group, in order, each
carrying its group's key as pmid. -/
theorem processGroups_ok {labs : LabsDict} {corpus : List CorpusRec} :
    ∀ (gs : List (String × List CRec)) (rows : List OutRow),
      processGroups labs corpus gs = Except.ok rows →
      rows.length = gs.length ∧
        ∀ i : ℕ, (rows[i]?).map OutRow.pmid = (gs[i]?).map Prod.fst := by
  intro gs
  induction gs with
  | nil =>
    intro rows h
    unfold processGroups at h
    have : rows = [] := (Except.ok.inj h).symm
    subst this
    exact ⟨rfl, fun i => by simp⟩
  | cons g t ih =>
    intro rows h
    obtain ⟨p, rs⟩ := g
    unfold processGroups at h
    cases hb : buildRow labs corpus p rs with
    | error e => rw [hb] at h; simp at h
    | ok row =>
      rw [hb] at h
      cases hr : processGroups labs corpus t with
      | error e => rw [hr] at h; simp at h
      | ok rest =>
        rw [hr] at h
        have hrows : rows = row :: rest := (Except.ok.inj h).symm
        subst hrows
        obtain ⟨hlen, hidx⟩ := ih rest hr
        refine ⟨by simp [hlen], fun i => ?_⟩
        cases i with
        | zero =>
          obtain ⟨best, hbb, hrw⟩ := buildRow_ok hb
          subst hrw
          simp [mkRow_pmid]
        | succ n =>
          simpa using hidx n

/-- The institution priority chain is the first non-empty value of the
three sources. -/
theorem pyOr_eq_firstNonEmpty (a b c : String) :
    pyOr a (pyOr b c) = firstNonEmpty [a, b, c] := by
  unfold pyOr firstNonEmpty
  by_cases ha : a = ""
  · subst ha
    by_cases hb : b = ""
    · subst hb
      by_cases hc : c = ""
      · subst hc; simp [List.find?]
      · have hcb : (c == "") = false := by simpa using hc
        simp [List.find?, hcb]
    · have hbb : (b == "") = false := by simpa using hb
      simp [List.find?, hbb, hb]
  · have hab : (a == "") = false := by simpa using ha
    simp [List.find?, hab, ha]

/-- Lowering a non-empty string yields a non-empty string. -/
theorem lowerStr_ne_empty {s : String} (h : s ≠ "") : lowerStr s ≠ "" := by
  cases s with
  | mk data =>
    cases data with
    | nil => exact absurd rfl h
    | cons c cs =>
      intro hcon
      have hdata : (lowerStr ⟨c :: cs⟩).data = [] := by rw [hcon]
      simp [lowerStr] at hdata

/-- A non-empty needle never occurs in the empty string. -/
theorem strHasSub_empty {needle : String} (h : needle ≠ "") :
    strHasSub "" needle = false := by
  unfold strHasSub hasSubChars
  cases hn : needle.data with
  | nil =>
    exfalso
    apply h
    cases needle with
    | mk data => simp at hn; rw [hn]
  | cons c cs => rfl

/-! ### Claim theorems -/

/-- Claim C5: every record whose doc_id matches `pmid:` followed by
digits lands in the group keyed by the digit string, in arrival order
(the group of `p` is exactly the subsequence of records the pattern
sends to `p`), and records failing the pattern appear in no group; in
particular `pmid:123#chunk5` keys group `123` and `not-a-pmid` is
skipped. -/
theorem C5_grouping :
    (∀ (records : List CRec) (p : String),
      lookupG (groupByPmid records) p =
        if filtRecs records p = [] then none else some (filtRecs records p)) ∧
    pmidOf "pmid:123#chunk5" = some "123" ∧
    pmidOf "not-a-pmid" = none := by
  refine ⟨?_, by decide, by decide⟩
  intro records p
  unfold groupByPmid
  rw [lookupG_foldGroups records [] p]
  rfl

/-- Claim C6 (refuted: the code has no per-group exception handling): a
group whose records mix string and numeric confidence values raises
while sorting, and the whole consolidation aborts with that error, so
the well-formed group `2` produces no output either - although group
`2` alone would produce its row. -/
theorem C6_exception_aborts :
    merge_extractions [mixedStr, mixedNum, goodRec] none [] =
      Except.error "TypeError: unorderable confidence values" ∧
    (merge_extractions [goodRec] none []).map (fun f => f.dataRows.map OutRow.pmid) =
      Except.ok ["2"] :=
  ⟨by decide, by decide⟩

/-- Claim C8: an absent gazetteer file loads as the empty lookup, under
which no record is ever enriched with geography; a present file is
keyed by the lowered institution name with later rows overwriting
earlier ones (a key resolves to the entry of the last row carrying it). -/
theorem C8_gazetteer_loader :
    load_labs_data none = [] ∧
    (∀ best : CRec, institution_match best (load_labs_data none) = none) ∧
    (∀ (rows : List LabsRow) (key : String),
      lookupD (load_labs_data (some rows)) key =
        ((rows.filter (fun row => lowerStr row.institution == key)).getLast?).map
          rowEntry) := by
  refine ⟨rfl, ?_, ?_⟩
  · intro best
    show institution_match best [] = none
    unfold institution_match
    have hA : strategyA best [] = none := by
      unfold strategyA
      cases best.institution with
      | none => rfl
      | some inst =>
        by_cases h : inst = ""
        · simp [h]
        · simp [h, lookupD, List.find?]
    rw [hA]
    simp
  · intro rows key
    show lookupD (rows.foldl loadStep []) key = _
    rw [lookupD_loadRows rows [] key]
    cases hg : (rows.filter (fun row => lowerStr row.institution == key)).getLast? with
    | none => simp [lookupD, List.find?]
    | some r => simp

/-- Claim C9: consolidation is deterministic - equal candidate,
gazetteer and corpus inputs give equal output files (the embedding is a
pure function of its inputs). -/
theorem C9_deterministic (c₁ c₂ : List CRec) (l₁ l₂ : Option (List LabsRow))
    (co₁ co₂ : List CorpusRec) (hc : c₁ = c₂) (hl : l₁ = l₂) (hco : co₁ = co₂) :
    merge_extractions c₁ l₁ co₁ = merge_extractions c₂ l₂ co₂ := by
  rw [hc, hl, hco]

/-- Witness for C9 at concrete inputs. -/
theorem C9_witness :
    merge_extractions [goodRec] (some wuhanRows) [corpAcme] =
      merge_extractions [goodRec] (some wuhanRows) [corpAcme] :=
  C9_deterministic [goodRec] [goodRec] (some wuhanRows) (some wuhanRows)
    [corpAcme] [corpAcme] rfl rfl rfl

/-- Claim C10 (implicit behaviour, true of the code): the corpus record
supplying aff_hint is the first one whose doc_id merely starts with
`pmid:` followed by the group id, with no delimiter check after the
digits - so group `12` picks up the aff_hint of the publication-123
corpus record and emits institution `Acme Lab`. -/
theorem C10_prefix_lookup :
    (∀ (corpus : List CorpusRec) (pmid : String),
      affHintFor corpus pmid =
        ((corpus.find? (fun r => pyStartsWith r.doc_id ("pmid:" ++ pmid))).bind
          (fun r => r.aff_hint)).getD "") ∧
    pmidOf cand12.doc_id = some "12" ∧
    corp123.doc_id = "pmid:123#chunk0" ∧
    pyStartsWith corp123.doc_id ("pmid:" ++ "12") = true ∧
    (merge_extractions [cand12] none [corp123]).map
        (fun f => f.dataRows.map OutRow.institution) = Except.ok ["Acme Lab"] :=
  ⟨fun _ _ => rfl, by decide, by decide, by decide, by decide⟩

/-- Claim C7: a successful run always yields the canonical 13-column
header, in order, with exactly one data row per grouped publication (in
group order, each row keyed by its group id); zero valid groups still
give the full header with zero data rows. -/
theorem C7_output_shape :
    (∀ (candidates : List CRec) (labsFile : Option (List LabsRow))
        (corpus : List CorpusRec) (file : CsvFile),
      merge_extractions candidates labsFile corpus = Except.ok file →
        file.header = ["pmid", "lab_name", "institution", "country", "city",
          "latitude", "longitude", "bsl_level_inferred", "pathogens",
          "research_types", "ppp_or_gof", "confidence", "source_pmid"] ∧
        file.dataRows.length = (groupByPmid candidates).length ∧
        ∀ i : ℕ, (file.dataRows[i]?).map OutRow.pmid =
          ((groupByPmid candidates)[i]?).map Prod.fst) ∧
    merge_extractions [] none [] = Except.ok { header := fieldnames, dataRows := [] } ∧
    merge_extractions [{ doc_id := "not-a-pmid" }] none [] =
      Except.ok { header := fieldnames, dataRows := [] } := by
  refine ⟨?_, by decide, by decide⟩
  intro candidates labsFile corpus file h
  unfold merge_extractions at h
  cases hp : processGroups (load_labs_data labsFile) corpus (groupByPmid candidates) with
  | error e => rw [hp] at h; simp at h
  | ok rows =>
    rw [hp] at h
    have hfile : file = { header := fieldnames, dataRows := rows } := (Except.ok.inj h).symm
    subst hfile
    obtain ⟨hlen, hidx⟩ := processGroups_ok (groupByPmid candidates) rows hp
    exact ⟨rfl, hlen, hidx⟩

/-- Witness for C7: the one-candidate run yields one data row for the
one group. -/
theorem C7_witness : hdrFile.dataRows.length = (groupByPmid [hdrCand]).length :=
  (C7_output_shape.1 [hdrCand] none [] hdrFile (by decide)).2.1

/-- Claim C2: the emitted institution is the first non-empty value
among the matching corpus record's aff_hint, the winner's own
institution field, and the gazetteer match's name (else empty); with
aff_hint `Acme Lab` against candidate institution `Other Lab` the
output says `Acme Lab`. -/
theorem C2_institution_priority :
    (∀ (labs : LabsDict) (corpus : List CorpusRec) (pmid : String)
        (recs : List CRec) (row : OutRow) (best : CRec),
      selectBest recs = Except.ok (some best) →
      buildRow labs corpus pmid recs = Except.ok row →
      row.institution = firstNonEmpty
        [affHintFor corpus pmid, best.institution.getD "",
         ((institution_match best labs).map GazEntry.institution).getD ""]) ∧
    (merge_extractions [candOther] none [corpAcme]).map
        (fun f => f.dataRows.map OutRow.institution) = Except.ok ["Acme Lab"] := by
  refine ⟨?_, by decide⟩
  intro labs corpus pmid recs row best hsel hbr
  obtain ⟨best', hsel', hrow⟩ := buildRow_ok hbr
  rw [hsel] at hsel'
  have hbb : best = best' := Option.some.inj (Except.ok.inj hsel')
  subst hbb
  subst hrow
  have hproj : (mkRow labs corpus pmid best).institution =
      pyOr (affHintFor corpus pmid)
        (pyOr (best.institution.getD "")
          (((institution_match best labs).map GazEntry.institution).getD "")) := by
    cases hm : institution_match best labs <;> simp [mkRow, hm]
  rw [hproj, pyOr_eq_firstNonEmpty]

/-- Witness for C2 at concrete inputs. -/
theorem C2_witness :
    (mkRow [] [corpAcme] "7" candOther).institution = firstNonEmpty
      [affHintFor [corpAcme] "7", candOther.institution.getD "",
       ((institution_match candOther []).map GazEntry.institution).getD ""] :=
  C2_institution_priority.1 [] [corpAcme] "7" [candOther]
    (mkRow [] [corpAcme] "7" candOther) candOther (by decide) (by decide)

/-- Claim C3: on a non-empty group with numeric (or missing, read as 0)
confidences, selection returns the first record achieving the maximum
confidence in arrival order, and the emitted confidence is the
winner's; on the group 0.4 / 0.9 / 0.9 the second record wins, never
the third. -/
theorem C3_selector :
    (∀ (recs : List CRec), recs ≠ [] → (∀ r ∈ recs, numericConf r = true) →
      firstMaxQ recs ≠ none ∧
      selectBest recs = Except.ok (firstMaxQ recs) ∧
      ∀ (labs : LabsDict) (corpus : List CorpusRec) (pmid : String) (row : OutRow)
        (best : CRec),
        firstMaxQ recs = some best →
        buildRow labs corpus pmid recs = Except.ok row →
        row.confidence = best.confidence.getD (ConfVal.num 0)) ∧
    selectBest [selA, selB, selC] = Except.ok (some selB) ∧ selB ≠ selC := by
  refine ⟨?_, by decide, by decide⟩
  intro recs hne hnum
  have hsort := sortDescM_numeric recs hnum
  have hsel : selectBest recs = Except.ok (firstMaxQ recs) := by
    unfold selectBest
    rw [hsort]
    show Except.ok (sortDescQ recs).head? = Except.ok (firstMaxQ recs)
    rw [head_sortDescQ recs]
  refine ⟨fun hFM => hne (firstMaxQ_eq_none hFM), hsel, ?_⟩
  intro labs corpus pmid row best hFM hbr
  obtain ⟨best', hsel', hrow⟩ := buildRow_ok hbr
  rw [hsel, hFM] at hsel'
  have hbb : best = best' := Option.some.inj (Except.ok.inj hsel')
  subst hbb
  subst hrow
  rfl

/-- Witness for C3 at the tie-break example. -/
theorem C3_witness :
    selectBest [selA, selB, selC] = Except.ok (firstMaxQ [selA, selB, selC]) :=
  ((C3_selector.1 [selA, selB, selC] (by decide) (by decide)).2).1

/-- Claim C4: the four geography fields come only from the gazetteer
match on the winning candidate (empty strings when it fails) and do not
depend on the corpus / institution-name source; resolving the name via
aff_hint to `Acme Lab`, absent from the gazetteer, leaves all four
geography fields empty. -/
theorem C4_geography_from_gazetteer :
    (∀ (labs : LabsDict) (corpus corpus₂ : List CorpusRec) (pmid : String)
        (recs : List CRec) (row row₂ : OutRow) (best : CRec),
      selectBest recs = Except.ok (some best) →
      buildRow labs corpus pmid recs = Except.ok row →
      buildRow labs corpus₂ pmid recs = Except.ok row₂ →
      (row.country = ((institution_match best labs).map GazEntry.country).getD "" ∧
       row.city = ((institution_match best labs).map GazEntry.city).getD "" ∧
       row.latitude = ((institution_match best labs).map GazEntry.latitude).getD "" ∧
       row.longitude = ((institution_match best labs).map GazEntry.longitude).getD "") ∧
      (row₂.country = row.country ∧ row₂.city = row.city ∧
       row₂.latitude = row.latitude ∧ row₂.longitude = row.longitude)) ∧
    (merge_extractions [candOther] (some wuhanRows) [corpAcme]).map
        (fun f => f.dataRows.map (fun r =>
          (r.institution, r.country, r.city, r.latitude, r.longitude))) =
      Except.ok [("Acme Lab", "", "", "", "")] := by
  refine ⟨?_, by decide⟩
  intro labs corpus corpus₂ pmid recs row row₂ best hsel h1 h2
  obtain ⟨b₁, hs₁, hr₁⟩ := buildRow_ok h1
  obtain ⟨b₂, hs₂, hr₂⟩ := buildRow_ok h2
  rw [hsel] at hs₁ hs₂
  have e₁ : best = b₁ := Option.some.inj (Except.ok.inj hs₁)
  have e₂ : best = b₂ := Option.some.inj (Except.ok.inj hs₂)
  subst e₁
  subst e₂
  subst hr₁
  subst hr₂
  constructor
  · refine ⟨?_, ?_, ?_, ?_⟩ <;>
      (cases hm : institution_match best labs <;> simp [mkRow, hm])
  · refine ⟨?_, ?_, ?_, ?_⟩ <;>
      (cases hm : institution_match best labs <;> simp [mkRow, hm])

/-- Witness for C4 at concrete inputs. -/
theorem C4_witness :
    (mkRow (load_labs_data (some wuhanRows)) [corpAcme] "7" candOther).country =
      ((institution_match candOther (load_labs_data (some wuhanRows))).map
        GazEntry.country).getD "" :=
  ((C4_geography_from_gazetteer.1 (load_labs_data (some wuhanRows)) [corpAcme] [] "7"
      [candOther] (mkRow (load_labs_data (some wuhanRows)) [corpAcme] "7" candOther)
      (mkRow (load_labs_data (some wuhanRows)) [] "7" candOther) candOther
      (by decide) (by decide) (by decide)).1).1

/-- Claim C1: the geography-matching cascade is Strategy A - which
succeeds exactly when the winner's institution field is present,
non-empty and its lowered value an exact gazetteer key - and, only on
its failure, the evidence scan over gazetteer entries in load order,
first hit winning (name-in-blob, or the NIAID abbreviation list for the
alias entry); stated as equality with the spec-worded cascade, for
gazetteers whose keys are non-empty. -/
theorem C1_matching_cascade :
    ∀ (best : CRec) (labs : LabsDict), (∀ kv ∈ labs, kv.1 ≠ "") →
      institution_match best labs = specGeoMatch best labs ∧
      (∀ e : GazEntry, strategyA best labs = some e ↔
        ∃ inst, best.institution = some inst ∧ inst ≠ "" ∧
          lookupD labs (lowerStr inst) = some e) := by
  intro best labs hkeys
  constructor
  · unfold institution_match specGeoMatch
    cases hA : strategyA best labs with
    | some e => rfl
    | none =>
      by_cases hev : evidenceBlob best = ""
      · have hfind : labs.find? (entryHit "") = none := by
          apply List.find?_eq_none.mpr
          intro kv hkv
          have hlow : lowerStr kv.1 ≠ "" := lowerStr_ne_empty (hkeys kv hkv)
          unfold entryHit
          rw [strHasSub_empty hlow]
          have h₁ : strHasSub "" "niaid" = false := by decide
          have h₂ : strHasSub "" "national institute of allergy" = false := by decide
          have h₃ : strHasSub "" "nih" = false := by decide
          rw [h₁, h₂, h₃]
          simp
        simp [hev, hfind]
      · by_cases hlabs : labs = []
        · subst hlabs
          simp [List.find?]
        · simp [hev, hlabs]
  · intro e
    unfold strategyA
    cases hi : best.institution with
    | none => simp
    | some inst =>
      by_cases h : inst = ""
      · subst h; simp
      · simp [h]

/-- Witness for C1: the NIAID abbreviation example against a two-entry
gazetteer. -/
theorem C1_witness :
    institution_match niaidCand (load_labs_data (some niaidRows)) =
      specGeoMatch niaidCand (load_labs_data (some niaidRows)) :=
  (C1_matching_cascade niaidCand (load_labs_data (some niaidRows)) (by decide)).1
